import Mathlib

/-!
Verification of the go-salesforce client library (record codec, DML request
construction, composite batch handling, and the authentication/session layer).

Go functions are shallowly embedded as pure Lean functions:
- Go `map[string]any` records become association lists `RecordMap` with the
  usual map operations (`mapGet`, `mapSet`, `mapDelete`).
- Each DML function `doXxx` is embedded as the request-construction phase of
  the Go function: everything the Go code does before handing the request to
  the `doRequest` transport collaborator.  The function returns the built
  `Request` or the local error the Go code would return first; a returned
  error means no network call is issued.
- A failed unchecked Go type assertion (a runtime panic) is modelled by the
  `RunError.goPanic` constructor, distinct from an ordinary returned error.
- The transport used by the authentication flows (`doAuth` in the source,
  which posts a form-encoded body and parses the JSON token response) is an
  external collaborator; it is abstracted as an oracle of type
  `AuthRequest → Except String authentication` whose argument carries the
  target URL and the form fields before encoding.
-/

set_option autoImplicit false
set_option linter.unusedVariables false

namespace GoSalesforce

/-- A value stored in a Go `map[string]any` record field, restricted to the
shapes the library manipulates: strings, integers, booleans, nulls, and the
injected attributes block `map[string]string · type: name ·`. -/
inductive GoValue where
  | str : String → GoValue
  | intV : Int → GoValue
  | boolV : Bool → GoValue
  | typeAttr : String → GoValue
  | nullV : GoValue
  deriving DecidableEq, Repr

/-- A Go `map[string]any` record, as an association list. -/
abbrev RecordMap := List (String × GoValue)

/-- Go map read `m[k]`: first binding for `k`, if any. -/
def mapGet (k : String) : RecordMap → Option GoValue
  | [] => none
  | (k2, v) :: rest => if k2 = k then some v else mapGet k rest

/-- Go map write `m[k] = v`: replace the binding for `k`, or append one. -/
def mapSet (k : String) (v : GoValue) : RecordMap → RecordMap
  | [] => [(k, v)]
  | (k2, v2) :: rest => if k2 = k then (k, v) :: rest else (k2, v2) :: mapSet k v rest

/-- Go `delete(m, k)`: remove every binding for `k`. -/
def mapDelete (k : String) : RecordMap → RecordMap
  | [] => []
  | (k2, v2) :: rest => if k2 = k then mapDelete k rest else (k2, v2) :: mapDelete k rest

/-- The checked Go type assertion `m[k].(string)`: the field's value when it
is present and is a string, `none` otherwise. -/
def stringFieldValue (m : RecordMap) (k : String) : Option String :=
  match mapGet k m with
  | some (GoValue.str s) => some s
  | _ => none

/-- The Go validity test `recordId, ok := m[k].(string); !ok or recordId == ""`
negated: `true` exactly when field `k` is present, is a string, and is
non-empty. -/
def hasNonEmptyString (m : RecordMap) (k : String) : Bool :=
  match stringFieldValue m k with
  | some s => if s = "" then false else true
  | none => false

/-- The Go `any` values callers pass as records or record collections:
a generic `map[string]any`, a `[]map[string]any` slice, an arbitrary struct
that mapstructure can decode into a key-value map, or an undecodable value. -/
inductive GoInput where
  | mapVal : RecordMap → GoInput
  | sliceVal : List RecordMap → GoInput
  | structVal : RecordMap → GoInput
  | invalidVal : GoInput
  deriving DecidableEq, Repr

/-- Outcome channel of an embedded Go function: a returned `error` value, or
a runtime panic (a failed unchecked type assertion). -/
inductive RunError where
  | goError : String → RunError
  | goPanic : String → RunError
  deriving DecidableEq, Repr

/-- Error message of `convertToMap` / `convertToSliceOfMaps` decode failure. -/
def codecErrMsg : String :=
  "issue decoding salesforce object, need a key value pair (custom struct or map)"

/-- Error message for a missing record identifier. -/
def idNotFoundMsg : String := "salesforce id not found in object data"

/-- Error message for an over-long composite batch. -/
def batchSizeMsg : String :=
  "salesforce composite api call supports up to 200 records at once"

/-- An apostrophe, for source error strings that quote field suffixes. -/
def squote : String := String.singleton (Char.ofNat 39)

/-- Error message for a missing external-id field on upsert. -/
def externalIdErrMsg (fieldName sObjectName : String) : String :=
  "salesforce externalId: " ++ fieldName ++ " not found in " ++ sObjectName ++
    " data. make sure to append custom fields with " ++ squote ++ "__c" ++ squote

/-- Panic message raised by the failed type assertion in
`convertToSliceOfMaps` on a plain map input. -/
def sliceAssertPanicMsg : String :=
  "interface conversion: interface is map[string]any, not []map[string]any"

/-- `convertToMap`: pass a `map[string]any` through unchanged, decode a
struct field-by-field, and reject anything mapstructure cannot decode into a
key-value map. -/
def convertToMap : GoInput → Except RunError RecordMap
  | GoInput.mapVal m => Except.ok m
  | GoInput.structVal m => Except.ok m
  | GoInput.sliceVal _ => Except.error (RunError.goError codecErrMsg)
  | GoInput.invalidVal => Except.error (RunError.goError codecErrMsg)

/-- `convertToSliceOfMaps`: the source first tests `obj.(map[string]any)` and,
when that test SUCCEEDS, performs the unchecked assertion
`obj.([]map[string]any)` — which necessarily panics, because the value just
proved to be a plain map.  Every other input goes through mapstructure:
slices of maps decode, anything else is a codec error. -/
def convertToSliceOfMaps : GoInput → Except RunError (List RecordMap)
  | GoInput.mapVal _ => Except.error (RunError.goPanic sliceAssertPanicMsg)
  | GoInput.sliceVal l => Except.ok l
  | GoInput.structVal _ => Except.error (RunError.goError codecErrMsg)
  | GoInput.invalidVal => Except.error (RunError.goError codecErrMsg)

/-- The JSON content type constant passed to the transport. -/
def jsonType : String := "application/json"

/-- `strconv.FormatBool`. -/
def formatBool (b : Bool) : String := if b then "true" else "false"

/-- Body of a built request: empty, a single record map, or a composite
collection payload `allOrNone` (already formatted as a string) plus records. -/
inductive RequestBody where
  | empty : RequestBody
  | record : RecordMap → RequestBody
  | collection : String → List RecordMap → RequestBody
  deriving DecidableEq, Repr

/-- The request a DML function hands to the `doRequest` transport
collaborator, just before serialization of the body. -/
structure Request where
  method : String
  uri : String
  content : String
  body : RequestBody
  deriving DecidableEq, Repr

/-- The session fields used by the v1 DML layer (unused by the request
builders themselves; forwarded to the transport). -/
structure Auth where
  AccessToken : String
  InstanceUrl : String
  Id : String
  IssuedAt : String
  Signature : String
  deriving DecidableEq, Repr

/-- `doInsertOne`: convert to a map, inject attributes, strip `Id`, build
`POST /sobjects/·type·`. -/
def doInsertOne (auth : Auth) (sObjectName : String) (record : GoInput) :
    Except RunError Request := do
  let recordMap ← convertToMap record
  let recordMap := mapSet "attributes" (GoValue.typeAttr sObjectName) recordMap
  let recordMap := mapDelete "Id" recordMap
  Except.ok { method := "POST", uri := "/sobjects/" ++ sObjectName,
              content := jsonType, body := RequestBody.record recordMap }

/-- `doUpdateOne`: require a non-empty string `Id`, inject attributes, strip
`Id`, build `PATCH /sobjects/·type·/·id·`. -/
def doUpdateOne (auth : Auth) (sObjectName : String) (record : GoInput) :
    Except RunError Request := do
  let recordMap ← convertToMap record
  match stringFieldValue recordMap "Id" with
  | some recordId =>
      if recordId = "" then Except.error (RunError.goError idNotFoundMsg)
      else
        let recordMap := mapSet "attributes" (GoValue.typeAttr sObjectName) recordMap
        let recordMap := mapDelete "Id" recordMap
        Except.ok { method := "PATCH",
                    uri := "/sobjects/" ++ sObjectName ++ "/" ++ recordId,
                    content := jsonType, body := RequestBody.record recordMap }
  | none => Except.error (RunError.goError idNotFoundMsg)

/-- `doUpsertOne`: require a non-empty string in the designated external-id
field, inject attributes, strip `Id` and the external-id field, build
`PATCH /sobjects/·type·/·field·/·value·`. -/
def doUpsertOne (auth : Auth) (sObjectName fieldName : String) (record : GoInput) :
    Except RunError Request := do
  let recordMap ← convertToMap record
  match stringFieldValue recordMap fieldName with
  | some externalIdValue =>
      if externalIdValue = "" then
        Except.error (RunError.goError (externalIdErrMsg fieldName sObjectName))
      else
        let recordMap := mapSet "attributes" (GoValue.typeAttr sObjectName) recordMap
        let recordMap := mapDelete "Id" recordMap
        let recordMap := mapDelete fieldName recordMap
        Except.ok { method := "PATCH",
                    uri := "/sobjects/" ++ sObjectName ++ "/" ++ fieldName ++ "/" ++ externalIdValue,
                    content := jsonType, body := RequestBody.record recordMap }
  | none => Except.error (RunError.goError (externalIdErrMsg fieldName sObjectName))

/-- `doDeleteOne`: require a non-empty string `Id`, build a bodyless
`DELETE /sobjects/·type·/·id·`. -/
def doDeleteOne (auth : Auth) (sObjectName : String) (record : GoInput) :
    Except RunError Request := do
  let recordMap ← convertToMap record
  match stringFieldValue recordMap "Id" with
  | some recordId =>
      if recordId = "" then Except.error (RunError.goError idNotFoundMsg)
      else
        Except.ok { method := "DELETE",
                    uri := "/sobjects/" ++ sObjectName ++ "/" ++ recordId,
                    content := jsonType, body := RequestBody.empty }
  | none => Except.error (RunError.goError idNotFoundMsg)

/-- Per-record preparation loop of `doInsertCollection`: delete `Id`, then
inject the attributes block. -/
def insertCollPrep (sObjectName : String) (l : List RecordMap) : List RecordMap :=
  l.map (fun m => mapSet "attributes" (GoValue.typeAttr sObjectName) (mapDelete "Id" m))

/-- `doInsertCollection`: convert to a slice of maps, enforce the 200-record
cap, prepare each record, build `POST /composite/sobjects/`. -/
def doInsertCollection (auth : Auth) (sObjectName : String) (records : GoInput)
    (allOrNone : Bool) : Except RunError Request := do
  let recordMap ← convertToSliceOfMaps records
  if recordMap.length > 200 then Except.error (RunError.goError batchSizeMsg)
  else
    Except.ok { method := "POST", uri := "/composite/sobjects/",
                content := jsonType,
                body := RequestBody.collection (formatBool allOrNone)
                          (insertCollPrep sObjectName recordMap) }

/-- Per-record loop of `doUpdateCollection`: inject attributes into each
record, then require a non-empty string `Id`; stop with an error at the first
record that lacks one.  `Id` is NOT deleted. -/
def updateCollPrep (sObjectName : String) : List RecordMap → Except RunError (List RecordMap)
  | [] => Except.ok []
  | m :: rest =>
      let m2 := mapSet "attributes" (GoValue.typeAttr sObjectName) m
      if hasNonEmptyString m2 "Id" then do
        let rest2 ← updateCollPrep sObjectName rest
        Except.ok (m2 :: rest2)
      else Except.error (RunError.goError idNotFoundMsg)

/-- `doUpdateCollection`: convert, enforce the cap, prepare each record
(attributes injected, `Id` required and kept), build
`PATCH /composite/sobjects/`. -/
def doUpdateCollection (auth : Auth) (sObjectName : String) (records : GoInput)
    (allOrNone : Bool) : Except RunError Request := do
  let recordMap ← convertToSliceOfMaps records
  if recordMap.length > 200 then Except.error (RunError.goError batchSizeMsg)
  else do
    let prepared ← updateCollPrep sObjectName recordMap
    Except.ok { method := "PATCH", uri := "/composite/sobjects/",
                content := jsonType,
                body := RequestBody.collection (formatBool allOrNone) prepared }

/-- Per-record loop of `doUpsertCollection`: inject attributes into each
record, then require a non-empty string in the external-id field; neither
`Id` nor the external-id field is deleted. -/
def upsertCollPrep (sObjectName fieldName : String) :
    List RecordMap → Except RunError (List RecordMap)
  | [] => Except.ok []
  | m :: rest =>
      let m2 := mapSet "attributes" (GoValue.typeAttr sObjectName) m
      if hasNonEmptyString m2 fieldName then do
        let rest2 ← upsertCollPrep sObjectName fieldName rest
        Except.ok (m2 :: rest2)
      else Except.error (RunError.goError (externalIdErrMsg fieldName sObjectName))

/-- `doUpsertCollection`: convert, enforce the cap, prepare each record,
build `PATCH /composite/sobjects/·type·/·field·`. -/
def doUpsertCollection (auth : Auth) (sObjectName fieldName : String)
    (records : GoInput) (allOrNone : Bool) : Except RunError Request := do
  let recordMap ← convertToSliceOfMaps records
  if recordMap.length > 200 then Except.error (RunError.goError batchSizeMsg)
  else do
    let prepared ← upsertCollPrep sObjectName fieldName recordMap
    Except.ok { method := "PATCH",
                uri := "/composite/sobjects/" ++ sObjectName ++ "/" ++ fieldName,
                content := jsonType,
                body := RequestBody.collection (formatBool allOrNone) prepared }

/-- Identifier-concatenation loop of `doDeleteCollection`: each record must
carry a non-empty string `Id`; identifiers are joined in input order with a
comma after every identifier except the last. -/
def deleteCollectionIds : List RecordMap → Except RunError String
  | [] => Except.ok ""
  | m :: rest =>
      match stringFieldValue m "Id" with
      | some recordId =>
          if recordId = "" then Except.error (RunError.goError idNotFoundMsg)
          else
            match rest with
            | [] => Except.ok recordId
            | _ :: _ => do
                let restIds ← deleteCollectionIds rest
                Except.ok (recordId ++ "," ++ restIds)
      | none => Except.error (RunError.goError idNotFoundMsg)

/-- `doDeleteCollection`: convert, enforce the cap, concatenate the
identifiers into the query string, build a bodyless
`DELETE /composite/sobjects/?ids=·csv·&allOrNone=·bool·`. -/
def doDeleteCollection (auth : Auth) (sObjectName : String) (records : GoInput)
    (allOrNone : Bool) : Except RunError Request := do
  let recordMap ← convertToSliceOfMaps records
  if recordMap.length > 200 then Except.error (RunError.goError batchSizeMsg)
  else do
    let ids ← deleteCollectionIds recordMap
    Except.ok { method := "DELETE",
                uri := "/composite/sobjects/?ids=" ++ ids ++ "&allOrNone=" ++ formatBool allOrNone,
                content := jsonType, body := RequestBody.empty }

/-! ### Composite batch response processing -/

/-- One structured error descriptor inside a per-record batch outcome. -/
structure SalesforceErrorMessage where
  statusCode : String
  message : String
  deriving DecidableEq, Repr

/-- One per-record outcome in the composite batch response body, in input
order: an optional assigned identifier, a success flag, and any error
descriptors. -/
structure SObjectResult where
  id : String
  success : Bool
  errors : List SalesforceErrorMessage
  deriving DecidableEq, Repr

/-- One entry of the aggregated batch error: a failing record's position in
the input order and its error descriptors. -/
structure FailedRecord where
  index : Nat
  errors : List SalesforceErrorMessage
  deriving DecidableEq, Repr

/-- Modelled from the spec: the scan inside `processSalesforceResponse`
(whose definition is not among the provided source files; only its call
sites are).  It walks the whole per-record outcome list, collecting every
failing record's index and error descriptors, without stopping at the first
failure. -/
def collectFailures (start : Nat) : List SObjectResult → List FailedRecord
  | [] => []
  | r :: rest =>
      if r.success then collectFailures (start + 1) rest
      else { index := start, errors := r.errors } :: collectFailures (start + 1) rest

/-- Modelled from the spec: `processSalesforceResponse` inspects the ordered
per-record outcome list of a structurally successful composite exchange and
returns `none` (no error) when every record succeeded, otherwise the
aggregate of all failing records. -/
def processSalesforceResponse (results : List SObjectResult) : Option (List FailedRecord) :=
  match collectFailures 0 results with
  | [] => none
  | failures => some failures

/-- Outcome of a collection call after the HTTP exchange. -/
inductive BatchOutcome where
  | success : BatchOutcome
  | httpError : Nat → BatchOutcome
  | recordFailures : List FailedRecord → BatchOutcome
  deriving DecidableEq, Repr

/-- The shared response phase of the four collection operations: a non-OK
status is surfaced as a remote error; on status OK the per-record outcome
list is scanned and any failures fail the whole call, otherwise success. -/
def collectionPostProcess (statusCode : Nat) (results : List SObjectResult) :
    BatchOutcome :=
  if statusCode = 200 then
    match processSalesforceResponse results with
    | none => BatchOutcome.success
    | some failures => BatchOutcome.recordFailures failures
  else BatchOutcome.httpError statusCode

/-! ### Authentication and session lifecycle -/

/-- Long-lived credentials supplied once at initialization. -/
structure Creds where
  Domain : String
  Username : String
  Password : String
  SecurityToken : String
  ConsumerKey : String
  ConsumerSecret : String
  AccessToken : String
  deriving DecidableEq, Repr

/-- The session produced by a grant flow, together with the stored flow tag
and the credentials kept for refresh. -/
structure authentication where
  AccessToken : String
  InstanceUrl : String
  Id : String
  TokenType : String
  Scope : String
  IssuedAt : String
  Signature : String
  grantType : String
  creds : Creds
  deriving DecidableEq, Repr

/-- Flow tag of the resource-owner (username-password) flow. -/
def grantTypeUsernamePassword : String := "password"

/-- Flow tag of the client-credentials flow. -/
def grantTypeClientCredentials : String := "client_credentials"

/-- Flow tag of the pre-issued-token flow. -/
def grantTypeAccessToken : String := "access_token"

/-- The request a grant flow hands to the `doAuth` transport collaborator:
the target URL and the form fields before form encoding. -/
structure AuthRequest where
  url : String
  payload : List (String × String)
  deriving DecidableEq, Repr

/-- The identity endpoint path appended to the domain. -/
def oauthTokenEndpoint : String := "/services/oauth2/token"

/-- The request built by `usernamePasswordFlow`. -/
def usernamePasswordRequest (domain username password securityToken consumerKey
    consumerSecret : String) : AuthRequest :=
  { url := domain ++ oauthTokenEndpoint,
    payload := [("grant_type", grantTypeUsernamePassword),
                ("client_id", consumerKey),
                ("client_secret", consumerSecret),
                ("username", username),
                ("password", password ++ securityToken)] }

/-- `usernamePasswordFlow`: post the resource-owner grant, and on success tag
the parsed session with the username-password flow tag. -/
def usernamePasswordFlow (doAuth : AuthRequest → Except String authentication)
    (domain username password securityToken consumerKey consumerSecret : String) :
    Except String authentication :=
  match doAuth (usernamePasswordRequest domain username password securityToken
      consumerKey consumerSecret) with
  | Except.error e => Except.error e
  | Except.ok auth => Except.ok { auth with grantType := grantTypeUsernamePassword }

/-- The request built by `clientCredentialsFlow`. -/
def clientCredentialsRequest (domain consumerKey consumerSecret : String) : AuthRequest :=
  { url := domain ++ oauthTokenEndpoint,
    payload := [("grant_type", grantTypeClientCredentials),
                ("client_id", consumerKey),
                ("client_secret", consumerSecret)] }

/-- `clientCredentialsFlow`: post the client-credentials grant, and on
success tag the parsed session with the client-credentials flow tag. -/
def clientCredentialsFlow (doAuth : AuthRequest → Except String authentication)
    (domain consumerKey consumerSecret : String) : Except String authentication :=
  match doAuth (clientCredentialsRequest domain consumerKey consumerSecret) with
  | Except.error e => Except.error e
  | Except.ok auth => Except.ok { auth with grantType := grantTypeClientCredentials }

/-- Error message of `refreshSession` on a non-refreshable flow tag. -/
def invalidSessionMsg : String := "invalid session, unable to refresh session"

/-- The `switch` of `refreshSession`: re-execute the flow selected by the
stored flow tag, or fail without touching the transport on any other tag. -/
def refreshFlow (doAuth : AuthRequest → Except String authentication)
    (auth : authentication) : Except String authentication :=
  if auth.grantType = grantTypeClientCredentials then
    clientCredentialsFlow doAuth auth.creds.Domain auth.creds.ConsumerKey
      auth.creds.ConsumerSecret
  else if auth.grantType = grantTypeUsernamePassword then
    usernamePasswordFlow doAuth auth.creds.Domain auth.creds.Username
      auth.creds.Password auth.creds.SecurityToken auth.creds.ConsumerKey
      auth.creds.ConsumerSecret
  else Except.error invalidSessionMsg

/-- `refreshSession`: the in-place mutation is made explicit by returning the
session after the call together with the returned error value.  When the
selected flow yields a refreshed session, exactly the access-token,
issued-at, signature, and identity fields are overwritten; otherwise the
session is returned untouched alongside the error. -/
def refreshSession (doAuth : AuthRequest → Except String authentication)
    (auth : authentication) : Except String Unit × authentication :=
  match refreshFlow doAuth auth with
  | Except.ok refreshedAuth =>
      (Except.ok (), { auth with
        AccessToken := refreshedAuth.AccessToken,
        IssuedAt := refreshedAuth.IssuedAt,
        Signature := refreshedAuth.Signature,
        Id := refreshedAuth.Id })
  | Except.error e => (Except.error e, auth)

/-- The spec's description of the delete-collection identifier list: the
identifiers joined in input order by commas, with no trailing comma. -/
def joinIds : List String → String
  | [] => ""
  | x :: rest =>
      match rest with
      | [] => x
      | _ :: _ => x ++ "," ++ joinIds rest

/-! ### Map operation lemmas -/

theorem mapGet_mapSet_self (k : String) (v : GoValue) (m : RecordMap) :
    mapGet k (mapSet k v m) = some v := by
  induction m with
  | nil => simp [mapSet, mapGet]
  | cons p rest ih =>
      obtain ⟨k2, v2⟩ := p
      by_cases h : k2 = k
      · simp [mapSet, h, mapGet]
      · simp [mapSet, h, mapGet, ih]

theorem mapGet_mapSet_ne (k k2 : String) (v : GoValue) (m : RecordMap)
    (h : k2 ≠ k) : mapGet k (mapSet k2 v m) = mapGet k m := by
  induction m with
  | nil => simp [mapSet, mapGet, h]
  | cons p rest ih =>
      obtain ⟨k3, v3⟩ := p
      by_cases h3 : k3 = k2
      · subst h3
        simp [mapSet, mapGet, h]
      · simp [mapSet, h3, mapGet, ih]

theorem mapGet_mapDelete_self (k : String) (m : RecordMap) :
    mapGet k (mapDelete k m) = none := by
  induction m with
  | nil => simp [mapDelete, mapGet]
  | cons p rest ih =>
      obtain ⟨k2, v2⟩ := p
      by_cases h : k2 = k
      · simp [mapDelete, h, ih]
      · simp [mapDelete, h, mapGet, ih]

theorem mapGet_mapDelete_ne (k k2 : String) (m : RecordMap) (h : k2 ≠ k) :
    mapGet k (mapDelete k2 m) = mapGet k m := by
  induction m with
  | nil => simp [mapDelete, mapGet]
  | cons p rest ih =>
      obtain ⟨k3, v3⟩ := p
      by_cases h3 : k3 = k2
      · subst h3
        simp [mapDelete, mapGet, h, ih]
      · simp [mapDelete, h3, mapGet, ih]

theorem stringFieldValue_mapSet_ne (m : RecordMap) (k k2 : String) (v : GoValue)
    (h : k2 ≠ k) : stringFieldValue (mapSet k2 v m) k = stringFieldValue m k := by
  simp [stringFieldValue, mapGet_mapSet_ne k k2 v m h]

theorem hasNonEmptyString_mapSet_ne (m : RecordMap) (k k2 : String) (v : GoValue)
    (h : k2 ≠ k) : hasNonEmptyString (mapSet k2 v m) k = hasNonEmptyString m k := by
  simp [hasNonEmptyString, stringFieldValue_mapSet_ne m k k2 v h]

/-! ### Collection loop lemmas -/

theorem updateCollPrep_ok (sObjectName : String) (l : List RecordMap)
    (h : ∀ m ∈ l, hasNonEmptyString m "Id" = true) :
    updateCollPrep sObjectName l =
      Except.ok (l.map (fun m => mapSet "attributes" (GoValue.typeAttr sObjectName) m)) := by
  induction l with
  | nil => simp [updateCollPrep]
  | cons m rest ih =>
      have hm : hasNonEmptyString m "Id" = true := h m (List.mem_cons_self m rest)
      have hm2 : hasNonEmptyString
          (mapSet "attributes" (GoValue.typeAttr sObjectName) m) "Id" = true := by
        rw [hasNonEmptyString_mapSet_ne m "Id" "attributes" _ (by decide)]
        exact hm
      have hrest : ∀ m2 ∈ rest, hasNonEmptyString m2 "Id" = true :=
        fun m2 hmem => h m2 (List.mem_cons_of_mem m hmem)
      simp [updateCollPrep, hm2, ih hrest, Bind.bind, Except.bind]

theorem updateCollPrep_err (sObjectName : String) (l : List RecordMap)
    (h : ∃ m ∈ l, hasNonEmptyString m "Id" = false) :
    updateCollPrep sObjectName l = Except.error (RunError.goError idNotFoundMsg) := by
  induction l with
  | nil => simp at h
  | cons m rest ih =>
      cases hb : hasNonEmptyString m "Id" with
      | false =>
          have hm2 : hasNonEmptyString
              (mapSet "attributes" (GoValue.typeAttr sObjectName) m) "Id" = false := by
            rw [hasNonEmptyString_mapSet_ne m "Id" "attributes" _ (by decide)]
            exact hb
          simp [updateCollPrep, hm2]
      | true =>
          have hm2 : hasNonEmptyString
              (mapSet "attributes" (GoValue.typeAttr sObjectName) m) "Id" = true := by
            rw [hasNonEmptyString_mapSet_ne m "Id" "attributes" _ (by decide)]
            exact hb
          obtain ⟨m2, hmem, hbad⟩ := h
          rcases List.mem_cons.mp hmem with heq | hmemRest
          · subst heq
            rw [hb] at hbad
            simp at hbad
          · simp [updateCollPrep, hm2, ih ⟨m2, hmemRest, hbad⟩, Bind.bind, Except.bind]

theorem upsertCollPrep_ok (sObjectName fieldName : String) (l : List RecordMap)
    (hf : fieldName ≠ "attributes")
    (h : ∀ m ∈ l, hasNonEmptyString m fieldName = true) :
    upsertCollPrep sObjectName fieldName l =
      Except.ok (l.map (fun m => mapSet "attributes" (GoValue.typeAttr sObjectName) m)) := by
  induction l with
  | nil => simp [upsertCollPrep]
  | cons m rest ih =>
      have hm : hasNonEmptyString m fieldName = true := h m (List.mem_cons_self m rest)
      have hm2 : hasNonEmptyString
          (mapSet "attributes" (GoValue.typeAttr sObjectName) m) fieldName = true := by
        rw [hasNonEmptyString_mapSet_ne m fieldName "attributes" _ (fun he => hf he.symm)]
        exact hm
      have hrest : ∀ m2 ∈ rest, hasNonEmptyString m2 fieldName = true :=
        fun m2 hmem => h m2 (List.mem_cons_of_mem m hmem)
      simp [upsertCollPrep, hm2, ih hrest, Bind.bind, Except.bind]

theorem deleteCollectionIds_ok (l : List RecordMap)
    (h : ∀ m ∈ l, hasNonEmptyString m "Id" = true) :
    deleteCollectionIds l =
      Except.ok (joinIds (l.map (fun m => (stringFieldValue m "Id").getD ""))) := by
  induction l with
  | nil => simp [deleteCollectionIds, joinIds]
  | cons m rest ih =>
      have hm : hasNonEmptyString m "Id" = true := h m (List.mem_cons_self m rest)
      have hrest : ∀ m2 ∈ rest, hasNonEmptyString m2 "Id" = true :=
        fun m2 hmem => h m2 (List.mem_cons_of_mem m hmem)
      cases hv : stringFieldValue m "Id" with
      | none => simp [hasNonEmptyString, hv] at hm
      | some s =>
          have hs : ¬ s = "" := by
            intro he
            simp [hasNonEmptyString, hv, he] at hm
          cases rest with
          | nil => simp [deleteCollectionIds, hv, hs, joinIds]
          | cons m2 rest2 =>
              rw [show deleteCollectionIds (m :: m2 :: rest2) =
                    (deleteCollectionIds (m2 :: rest2)).bind
                      (fun restIds => Except.ok (s ++ "," ++ restIds)) from by
                  simp [deleteCollectionIds, hv, hs, Bind.bind]]
              rw [ih hrest]
              simp [Except.bind, joinIds, hv]

theorem deleteCollectionIds_err (l : List RecordMap)
    (h : ∃ m ∈ l, hasNonEmptyString m "Id" = false) :
    deleteCollectionIds l = Except.error (RunError.goError idNotFoundMsg) := by
  induction l with
  | nil => simp at h
  | cons m rest ih =>
      cases hv : stringFieldValue m "Id" with
      | none => cases rest <;> simp [deleteCollectionIds, hv]
      | some s =>
          by_cases hs : s = ""
          · cases rest <;> simp [deleteCollectionIds, hv, hs]
          · obtain ⟨m2, hmem, hbad⟩ := h
            rcases List.mem_cons.mp hmem with heq | hmemRest
            · subst heq
              simp [hasNonEmptyString, hv, hs] at hbad
            · have hrestErr := ih ⟨m2, hmemRest, hbad⟩
              cases rest with
              | nil => exact absurd hmemRest (List.not_mem_nil m2)
              | cons m3 rest3 =>
                  rw [show deleteCollectionIds (m :: m3 :: rest3) =
                        (deleteCollectionIds (m3 :: rest3)).bind
                          (fun restIds => Except.ok (s ++ "," ++ restIds)) from by
                      simp [deleteCollectionIds, hv, hs, Bind.bind]]
                  rw [hrestErr]
                  rfl

theorem collectFailures_eq_nil_iff (start : Nat) (l : List SObjectResult) :
    collectFailures start l = [] ↔ ∀ r ∈ l, r.success = true := by
  induction l generalizing start with
  | nil => simp [collectFailures]
  | cons r rest ih =>
      cases hb : r.success with
      | true => simp [collectFailures, hb, ih (start + 1)]
      | false => simp [collectFailures, hb]

theorem mem_collectFailures (start : Nat) (l : List SObjectResult) (i : Nat)
    (h : i < l.length) (hf : (l.get ⟨i, h⟩).success = false) :
    FailedRecord.mk (start + i) (l.get ⟨i, h⟩).errors ∈ collectFailures start l := by
  induction l generalizing start i with
  | nil => exact absurd h (Nat.not_lt_zero i)
  | cons r rest ih =>
      cases i with
      | zero =>
          have hf0 : r.success = false := hf
          simp [collectFailures, hf0, List.mem_cons]
      | succ j =>
          have hj : j < rest.length := Nat.lt_of_succ_lt_succ h
          have hget : (r :: rest).get ⟨j + 1, h⟩ = rest.get ⟨j, hj⟩ := rfl
          have hf2 : (rest.get ⟨j, hj⟩).success = false := hf
          rw [hget]
          have harith : start + (j + 1) = (start + 1) + j := by omega
          rw [harith]
          cases hb : r.success with
          | true =>
              rw [show collectFailures start (r :: rest) =
                    collectFailures (start + 1) rest from by simp [collectFailures, hb]]
              exact ih (start + 1) j hj hf2
          | false =>
              rw [show collectFailures start (r :: rest) =
                    FailedRecord.mk start r.errors :: collectFailures (start + 1) rest from by
                  simp [collectFailures, hb]]
              exact List.mem_cons_of_mem _ (ih (start + 1) j hj hf2)

/-! ### Claim theorems -/

/-- C3: the claim says the list normalizer `convertToSliceOfMaps` is total and
never panics, in particular on a single `map[string]any` input.  The code
violates this: on a plain map input the checked assertion
`obj.(map[string]any)` succeeds, and the branch then performs the unchecked
assertion `obj.([]map[string]any)`, which fails at runtime and panics.  This
theorem evaluates the embedded code at every such failing input. -/
theorem convertToSliceOfMaps_map_input_panics (m : RecordMap) :
    convertToSliceOfMaps (GoInput.mapVal m) =
      Except.error (RunError.goPanic sliceAssertPanicMsg) := rfl

/-- C5: for every session whose stored flow tag is neither the
username-password flow nor the client-credentials flow (in particular the
pre-issued-token flow), refresh fails immediately with the invalid-session
error, the session is untouched, and the result is the same for every
transport oracle — no network call is issued. -/
theorem refreshSession_invalid_flow_fails
    (doAuthO : AuthRequest → Except String authentication) (auth : authentication)
    (h1 : auth.grantType ≠ grantTypeUsernamePassword)
    (h2 : auth.grantType ≠ grantTypeClientCredentials) :
    refreshSession doAuthO auth = (Except.error invalidSessionMsg, auth) := by
  simp [refreshSession, refreshFlow, h1, h2]

/-- Demo credentials for concrete witnesses. -/
def demoCreds : Creds :=
  { Domain := "https://example.my.salesforce.com", Username := "user",
    Password := "pw", SecurityToken := "tok", ConsumerKey := "key",
    ConsumerSecret := "secret", AccessToken := "" }

/-- Demo session produced by the username-password flow. -/
def demoSession : authentication :=
  { AccessToken := "oldToken", InstanceUrl := "https://inst.example.com",
    Id := "oldId", TokenType := "Bearer", Scope := "full", IssuedAt := "100",
    Signature := "sigOld", grantType := grantTypeUsernamePassword,
    creds := demoCreds }

/-- Demo token response returned by the transport oracle. -/
def demoTokenResponse : authentication :=
  { AccessToken := "newToken", InstanceUrl := "https://other.example.com",
    Id := "newId", TokenType := "Bearer", Scope := "full", IssuedAt := "200",
    Signature := "sigNew", grantType := "", creds := demoCreds }

/-- Demo transport oracle that always succeeds. -/
def demoOracle : AuthRequest → Except String authentication :=
  fun _ => Except.ok demoTokenResponse

/-- Demo session produced by the pre-issued-token flow. -/
def demoTokenSession : authentication :=
  { AccessToken := "directToken", InstanceUrl := "https://inst.example.com",
    Id := "", TokenType := "", Scope := "", IssuedAt := "", Signature := "",
    grantType := grantTypeAccessToken, creds := demoCreds }

/-- Witness for C5 at the pre-issued-token flow tag and a live oracle. -/
theorem refreshSession_invalid_flow_fails_witness :
    refreshSession demoOracle demoTokenSession =
      (Except.error invalidSessionMsg, demoTokenSession) :=
  refreshSession_invalid_flow_fails demoOracle demoTokenSession
    (by decide) (by decide)

/-- C4: a successful refresh overwrites only the access-token, issued-at,
signature, and identity fields of the session, taking them from the flow's
result; the instance URL and the stored flow tag (and every other field) are
left unchanged. -/
theorem refreshSession_success_frame
    (doAuthO : AuthRequest → Except String authentication)
    (auth auth2 : authentication)
    (h : refreshSession doAuthO auth = (Except.ok (), auth2)) :
    auth2.InstanceUrl = auth.InstanceUrl ∧ auth2.grantType = auth.grantType ∧
    auth2.TokenType = auth.TokenType ∧ auth2.Scope = auth.Scope ∧
    auth2.creds = auth.creds ∧
    ∃ refreshedAuth, refreshFlow doAuthO auth = Except.ok refreshedAuth ∧
      auth2 = { auth with
        AccessToken := refreshedAuth.AccessToken,
        IssuedAt := refreshedAuth.IssuedAt,
        Signature := refreshedAuth.Signature,
        Id := refreshedAuth.Id } := by
  unfold refreshSession at h
  cases hflow : refreshFlow doAuthO auth with
  | ok refreshedAuth =>
      rw [hflow] at h
      have h2 : auth2 = { auth with
          AccessToken := refreshedAuth.AccessToken,
          IssuedAt := refreshedAuth.IssuedAt,
          Signature := refreshedAuth.Signature,
          Id := refreshedAuth.Id } := by
        have := congrArg Prod.snd h
        simpa using this.symm
      subst h2
      exact ⟨rfl, rfl, rfl, rfl, rfl, refreshedAuth, rfl, rfl⟩
  | error e =>
      rw [hflow] at h
      exact absurd (congrArg Prod.fst h) (by simp)

/-- Witness for C4 at a concrete session and an oracle that returns a
concrete token response. -/
theorem refreshSession_success_frame_witness :
    (refreshSession demoOracle demoSession).2.InstanceUrl = demoSession.InstanceUrl ∧
    (refreshSession demoOracle demoSession).2.grantType = demoSession.grantType ∧
    (refreshSession demoOracle demoSession).2.TokenType = demoSession.TokenType ∧
    (refreshSession demoOracle demoSession).2.Scope = demoSession.Scope ∧
    (refreshSession demoOracle demoSession).2.creds = demoSession.creds ∧
    ∃ refreshedAuth, refreshFlow demoOracle demoSession = Except.ok refreshedAuth ∧
      (refreshSession demoOracle demoSession).2 = { demoSession with
        AccessToken := refreshedAuth.AccessToken,
        IssuedAt := refreshedAuth.IssuedAt,
        Signature := refreshedAuth.Signature,
        Id := refreshedAuth.Id } :=
  refreshSession_success_frame demoOracle demoSession
    (refreshSession demoOracle demoSession).2 rfl

/-- C10: refresh is atomic on failure — whenever the stored flow tag selects
one of the two re-executable flows and that flow returns an error, the whole
session (every field) is left exactly as it was and the flow's error is
returned to the caller. -/
theorem refreshSession_failure_atomic
    (doAuthO : AuthRequest → Except String authentication)
    (auth : authentication) (e : String)
    (htag : auth.grantType = grantTypeClientCredentials ∨
            auth.grantType = grantTypeUsernamePassword)
    (herr : refreshFlow doAuthO auth = Except.error e) :
    refreshSession doAuthO auth = (Except.error e, auth) := by
  unfold refreshSession
  rw [herr]

/-- Demo transport oracle that always fails. -/
def demoFailingOracle : AuthRequest → Except String authentication :=
  fun _ => Except.error "400 Bad Request: failed authentication"

/-- Witness for C10 at a concrete username-password session whose re-executed
flow fails. -/
theorem refreshSession_failure_atomic_witness :
    refreshSession demoFailingOracle demoSession =
      (Except.error "400 Bad Request: failed authentication", demoSession) :=
  refreshSession_failure_atomic demoFailingOracle demoSession
    "400 Bad Request: failed authentication" (Or.inr (by decide)) rfl

/-- C9: the resource-owner flow posts, to `·domain·/services/oauth2/token`,
a form payload containing `grant_type=password`, the consumer key as
`client_id`, the consumer secret as `client_secret`, the username, and the
password concatenated with the security token as `password`; on success the
resulting session's flow tag is the username-password flow. -/
theorem usernamePasswordFlow_request_shape
    (doAuthO : AuthRequest → Except String authentication)
    (domain username password securityToken consumerKey consumerSecret : String) :
    (usernamePasswordRequest domain username password securityToken consumerKey
        consumerSecret).url = domain ++ "/services/oauth2/token" ∧
    ("grant_type", "password") ∈ (usernamePasswordRequest domain username password
        securityToken consumerKey consumerSecret).payload ∧
    ("client_id", consumerKey) ∈ (usernamePasswordRequest domain username password
        securityToken consumerKey consumerSecret).payload ∧
    ("client_secret", consumerSecret) ∈ (usernamePasswordRequest domain username
        password securityToken consumerKey consumerSecret).payload ∧
    ("username", username) ∈ (usernamePasswordRequest domain username password
        securityToken consumerKey consumerSecret).payload ∧
    ("password", password ++ securityToken) ∈ (usernamePasswordRequest domain
        username password securityToken consumerKey consumerSecret).payload ∧
    (∀ a, doAuthO (usernamePasswordRequest domain username password securityToken
          consumerKey consumerSecret) = Except.ok a →
        usernamePasswordFlow doAuthO domain username password securityToken
          consumerKey consumerSecret =
          Except.ok { a with grantType := grantTypeUsernamePassword }) ∧
    (∀ r, usernamePasswordFlow doAuthO domain username password securityToken
          consumerKey consumerSecret = Except.ok r →
        r.grantType = grantTypeUsernamePassword) := by
  refine ⟨rfl, ?_, ?_, ?_, ?_, ?_, ?_, ?_⟩
  · simp [usernamePasswordRequest, grantTypeUsernamePassword]
  · simp [usernamePasswordRequest]
  · simp [usernamePasswordRequest]
  · simp [usernamePasswordRequest]
  · simp [usernamePasswordRequest]
  · intro a ha
    simp [usernamePasswordFlow, ha]
  · intro r hr
    unfold usernamePasswordFlow at hr
    cases hcall : doAuthO (usernamePasswordRequest domain username password
        securityToken consumerKey consumerSecret) with
    | ok a =>
        rw [hcall] at hr
        have : r = { a with grantType := grantTypeUsernamePassword } := by
          simpa using hr.symm
        rw [this]
    | error e =>
        rw [hcall] at hr
        exact absurd hr (by simp)

/-- Witness for C9's conditional parts at a concrete oracle and inputs. -/
theorem usernamePasswordFlow_request_shape_witness :
    usernamePasswordFlow demoOracle "https://example.my.salesforce.com" "user"
        "pw" "tok" "key" "secret" =
      Except.ok { demoTokenResponse with grantType := grantTypeUsernamePassword } :=
  (usernamePasswordFlow_request_shape demoOracle
      "https://example.my.salesforce.com" "user" "pw" "tok" "key"
      "secret").2.2.2.2.2.2.1 demoTokenResponse rfl

/-- Demo v1 session for concrete DML witnesses. -/
def demoAuth : Auth :=
  { AccessToken := "t", InstanceUrl := "https://inst.example.com",
    Id := "", IssuedAt := "", Signature := "" }

/-- C7: for every record list whose members all carry a non-empty string
`Id`, collection delete builds a bodyless DELETE request whose URI is
`/composite/sobjects/?ids=` followed by the identifiers joined in input
order by commas with no trailing comma, then `&allOrNone=` and the flag. -/
theorem deleteCollection_request_shape (auth : Auth) (sObjectName : String)
    (records : List RecordMap) (allOrNone : Bool)
    (hids : ∀ m ∈ records, hasNonEmptyString m "Id" = true)
    (hlen : records.length ≤ 200) :
    doDeleteCollection auth sObjectName (GoInput.sliceVal records) allOrNone =
      Except.ok { method := "DELETE",
                  uri := "/composite/sobjects/?ids=" ++
                    joinIds (records.map (fun m => (stringFieldValue m "Id").getD "")) ++
                    "&allOrNone=" ++ formatBool allOrNone,
                  content := jsonType, body := RequestBody.empty } := by
  have hnot : ¬ records.length > 200 := by omega
  simp [doDeleteCollection, convertToSliceOfMaps, hnot,
        deleteCollectionIds_ok records hids, Bind.bind, Except.bind]

/-- Witness for C7 at two concrete records. -/
theorem deleteCollection_request_shape_witness :
    doDeleteCollection demoAuth "Account"
        (GoInput.sliceVal [[("Id", GoValue.str "001")], [("Id", GoValue.str "002")]]) true =
      Except.ok { method := "DELETE",
                  uri := "/composite/sobjects/?ids=001,002&allOrNone=true",
                  content := jsonType, body := RequestBody.empty } :=
  deleteCollection_request_shape demoAuth "Account"
    [[("Id", GoValue.str "001")], [("Id", GoValue.str "002")]] true
    (by decide) (by decide)

/-- C6: a record whose `Id` field is absent, empty, or not a string makes
single-record update and delete fail immediately with the local
identifier-not-found error (so no request is built and no network call is
made); the same failure occurs when any record of collection update or
collection delete lacks a valid `Id`. -/
theorem missing_id_local_error (auth : Auth) (sObjectName : String)
    (m : RecordMap) (records : List RecordMap) (allOrNone : Bool) :
    (hasNonEmptyString m "Id" = false →
      doUpdateOne auth sObjectName (GoInput.mapVal m) =
        Except.error (RunError.goError idNotFoundMsg) ∧
      doDeleteOne auth sObjectName (GoInput.mapVal m) =
        Except.error (RunError.goError idNotFoundMsg)) ∧
    (records.length ≤ 200 → (∃ m2 ∈ records, hasNonEmptyString m2 "Id" = false) →
      doUpdateCollection auth sObjectName (GoInput.sliceVal records) allOrNone =
        Except.error (RunError.goError idNotFoundMsg) ∧
      doDeleteCollection auth sObjectName (GoInput.sliceVal records) allOrNone =
        Except.error (RunError.goError idNotFoundMsg)) := by
  constructor
  · intro hbad
    cases hv : stringFieldValue m "Id" with
    | none =>
        constructor
        · simp [doUpdateOne, convertToMap, hv, Bind.bind, Except.bind]
        · simp [doDeleteOne, convertToMap, hv, Bind.bind, Except.bind]
    | some s =>
        have hs : s = "" := by
          by_contra hs
          simp [hasNonEmptyString, hv, hs] at hbad
        subst hs
        constructor
        · simp [doUpdateOne, convertToMap, hv, Bind.bind, Except.bind]
        · simp [doDeleteOne, convertToMap, hv, Bind.bind, Except.bind]
  · intro hlen hex
    have hnot : ¬ records.length > 200 := by omega
    constructor
    · simp [doUpdateCollection, convertToSliceOfMaps, hnot,
            updateCollPrep_err sObjectName records hex, Bind.bind, Except.bind]
    · simp [doDeleteCollection, convertToSliceOfMaps, hnot,
            deleteCollectionIds_err records hex, Bind.bind, Except.bind]

/-- Witness for C6 at a concrete record that has a name but no identifier. -/
theorem missing_id_local_error_witness :
    doUpdateOne demoAuth "Account" (GoInput.mapVal [("Name", GoValue.str "Acme")]) =
      Except.error (RunError.goError idNotFoundMsg) ∧
    doDeleteCollection demoAuth "Account"
        (GoInput.sliceVal [[("Name", GoValue.str "Acme")]]) true =
      Except.error (RunError.goError idNotFoundMsg) := by
  constructor
  · exact ((missing_id_local_error demoAuth "Account" [("Name", GoValue.str "Acme")]
      [] true).1 (by decide)).1
  · exact ((missing_id_local_error demoAuth "Account" []
      [[("Name", GoValue.str "Acme")]] true).2 (by decide)
      ⟨[("Name", GoValue.str "Acme")], by decide, by decide⟩).2

/-- C2: every collection operation rejects a record list longer than 200 with
the local batch-cap error before building any request (hence before any
serialization or network call) — the rejection holds for arbitrary record
contents — while a list of exactly 200 records passes the cap check and
proceeds to a built request (unconditionally for insert; for update, upsert,
and delete once each record carries its required identifying field). -/
theorem batchCap_enforced (auth : Auth) (sObjectName fieldName : String)
    (records : List RecordMap) (allOrNone : Bool) :
    (records.length > 200 →
      doInsertCollection auth sObjectName (GoInput.sliceVal records) allOrNone =
        Except.error (RunError.goError batchSizeMsg) ∧
      doUpdateCollection auth sObjectName (GoInput.sliceVal records) allOrNone =
        Except.error (RunError.goError batchSizeMsg) ∧
      doUpsertCollection auth sObjectName fieldName (GoInput.sliceVal records) allOrNone =
        Except.error (RunError.goError batchSizeMsg) ∧
      doDeleteCollection auth sObjectName (GoInput.sliceVal records) allOrNone =
        Except.error (RunError.goError batchSizeMsg)) ∧
    (records.length = 200 →
      (∃ req, doInsertCollection auth sObjectName (GoInput.sliceVal records) allOrNone =
          Except.ok req) ∧
      ((∀ m ∈ records, hasNonEmptyString m "Id" = true) →
        (∃ req, doUpdateCollection auth sObjectName (GoInput.sliceVal records) allOrNone =
            Except.ok req) ∧
        (∃ req, doDeleteCollection auth sObjectName (GoInput.sliceVal records) allOrNone =
            Except.ok req)) ∧
      (fieldName ≠ "attributes" →
        (∀ m ∈ records, hasNonEmptyString m fieldName = true) →
        ∃ req, doUpsertCollection auth sObjectName fieldName (GoInput.sliceVal records)
            allOrNone = Except.ok req)) := by
  constructor
  · intro hbig
    refine ⟨?_, ?_, ?_, ?_⟩
    · simp [doInsertCollection, convertToSliceOfMaps, hbig, Bind.bind, Except.bind]
    · simp [doUpdateCollection, convertToSliceOfMaps, hbig, Bind.bind, Except.bind]
    · simp [doUpsertCollection, convertToSliceOfMaps, hbig, Bind.bind, Except.bind]
    · simp [doDeleteCollection, convertToSliceOfMaps, hbig, Bind.bind, Except.bind]
  · intro hlen
    have hnot : ¬ records.length > 200 := by omega
    refine ⟨?_, ?_, ?_⟩
    · exact ⟨{ method := "POST", uri := "/composite/sobjects/", content := jsonType,
               body := RequestBody.collection (formatBool allOrNone)
                 (insertCollPrep sObjectName records) },
        by simp [doInsertCollection, convertToSliceOfMaps, hnot, Bind.bind, Except.bind]⟩
    · intro hids
      constructor
      · exact ⟨{ method := "PATCH", uri := "/composite/sobjects/", content := jsonType,
                 body := RequestBody.collection (formatBool allOrNone)
                   (records.map (fun m => mapSet "attributes" (GoValue.typeAttr sObjectName) m)) },
          by simp [doUpdateCollection, convertToSliceOfMaps, hnot,
            updateCollPrep_ok sObjectName records hids, Bind.bind, Except.bind]⟩
      · exact ⟨{ method := "DELETE",
                 uri := "/composite/sobjects/?ids=" ++
                   joinIds (records.map (fun m => (stringFieldValue m "Id").getD "")) ++
                   "&allOrNone=" ++ formatBool allOrNone,
                 content := jsonType, body := RequestBody.empty },
          by simp [doDeleteCollection, convertToSliceOfMaps, hnot,
            deleteCollectionIds_ok records hids, Bind.bind, Except.bind]⟩
    · intro hfa hfv
      exact ⟨{ method := "PATCH",
               uri := "/composite/sobjects/" ++ sObjectName ++ "/" ++ fieldName,
               content := jsonType,
               body := RequestBody.collection (formatBool allOrNone)
                 (records.map (fun m => mapSet "attributes" (GoValue.typeAttr sObjectName) m)) },
        by simp [doUpsertCollection, convertToSliceOfMaps, hnot,
          upsertCollPrep_ok sObjectName fieldName records hfa hfv, Bind.bind, Except.bind]⟩

/-- Witness for C2: a 201-record insert fails locally with the cap error and
a 200-record insert proceeds to a built request. -/
theorem batchCap_enforced_witness :
    doInsertCollection demoAuth "Account"
        (GoInput.sliceVal (List.replicate 201 [])) true =
      Except.error (RunError.goError batchSizeMsg) ∧
    ∃ req, doInsertCollection demoAuth "Account"
        (GoInput.sliceVal (List.replicate 200 [])) true = Except.ok req := by
  constructor
  · exact ((batchCap_enforced demoAuth "Account" "Ext"
      (List.replicate 201 []) true).1 (by norm_num)).1
  · exact ((batchCap_enforced demoAuth "Account" "Ext"
      (List.replicate 200 []) true).2 (by norm_num)).1

/-- C1 counterexample: collection update and collection upsert do NOT strip
the identifier (nor, for upsert, the external-id field) from the encoded
record bodies.  At a concrete one-record input, the encoded collection-update
body still contains `Id`, and the encoded collection-upsert body still
contains both `Id` and the external-id field `Email`. -/
theorem collectionEncoding_keeps_id_cex :
    doUpdateCollection demoAuth "Account"
        (GoInput.sliceVal [[("Id", GoValue.str "001")]]) true =
      Except.ok { method := "PATCH", uri := "/composite/sobjects/",
                  content := jsonType,
                  body := RequestBody.collection "true"
                    [[("Id", GoValue.str "001"),
                      ("attributes", GoValue.typeAttr "Account")]] } ∧
    mapGet "Id" [("Id", GoValue.str "001"), ("attributes", GoValue.typeAttr "Account")] =
      some (GoValue.str "001") ∧
    doUpsertCollection demoAuth "Account" "Email"
        (GoInput.sliceVal [[("Id", GoValue.str "001"), ("Email", GoValue.str "x")]]) true =
      Except.ok { method := "PATCH", uri := "/composite/sobjects/Account/Email",
                  content := jsonType,
                  body := RequestBody.collection "true"
                    [[("Id", GoValue.str "001"), ("Email", GoValue.str "x"),
                      ("attributes", GoValue.typeAttr "Account")]] } ∧
    mapGet "Id" [("Id", GoValue.str "001"), ("Email", GoValue.str "x"),
        ("attributes", GoValue.typeAttr "Account")] = some (GoValue.str "001") ∧
    mapGet "Email" [("Id", GoValue.str "001"), ("Email", GoValue.str "x"),
        ("attributes", GoValue.typeAttr "Account")] = some (GoValue.str "x") :=
  ⟨rfl, by decide, rfl, by decide, by decide⟩

/-- The encoded single-record body has no `Id` binding. -/
theorem encodedRecord_id_none (sObjectName : String) (m : RecordMap) :
    mapGet "Id" (mapDelete "Id" (mapSet "attributes" (GoValue.typeAttr sObjectName) m)) =
      none :=
  mapGet_mapDelete_self "Id" _

/-- The encoded single-record body carries the injected attributes block. -/
theorem encodedRecord_attrs (sObjectName : String) (m : RecordMap) :
    mapGet "attributes"
        (mapDelete "Id" (mapSet "attributes" (GoValue.typeAttr sObjectName) m)) =
      some (GoValue.typeAttr sObjectName) := by
  rw [mapGet_mapDelete_ne "attributes" "Id" _ (by decide)]
  exact mapGet_mapSet_self "attributes" _ m

/-- C1 (amended): single-record insert, update, and upsert and collection
insert strip the `Id` field and inject the attributes block into every
encoded record body (single-record upsert additionally strips the designated
external-id field, provided that field is not named `attributes`); collection
update and collection upsert, by contrast, only inject the attributes block —
they leave the `Id` field, and for upsert the external-id field, in the
encoded record bodies. -/
theorem writeEncoding_attributes_amended (auth : Auth)
    (sObjectName fieldName : String) (m : RecordMap) (records : List RecordMap)
    (allOrNone : Bool) :
    (∃ req rm, doInsertOne auth sObjectName (GoInput.mapVal m) = Except.ok req ∧
      req.body = RequestBody.record rm ∧ mapGet "Id" rm = none ∧
      mapGet "attributes" rm = some (GoValue.typeAttr sObjectName)) ∧
    (hasNonEmptyString m "Id" = true →
      ∃ req rm, doUpdateOne auth sObjectName (GoInput.mapVal m) = Except.ok req ∧
        req.body = RequestBody.record rm ∧ mapGet "Id" rm = none ∧
        mapGet "attributes" rm = some (GoValue.typeAttr sObjectName)) ∧
    (hasNonEmptyString m fieldName = true → fieldName ≠ "attributes" →
      ∃ req rm, doUpsertOne auth sObjectName fieldName (GoInput.mapVal m) =
          Except.ok req ∧
        req.body = RequestBody.record rm ∧ mapGet "Id" rm = none ∧
        mapGet fieldName rm = none ∧
        mapGet "attributes" rm = some (GoValue.typeAttr sObjectName)) ∧
    (records.length ≤ 200 →
      ∃ req rms, doInsertCollection auth sObjectName (GoInput.sliceVal records)
          allOrNone = Except.ok req ∧
        req.body = RequestBody.collection (formatBool allOrNone) rms ∧
        ∀ rm ∈ rms, mapGet "Id" rm = none ∧
          mapGet "attributes" rm = some (GoValue.typeAttr sObjectName)) ∧
    (records.length ≤ 200 → (∀ m2 ∈ records, hasNonEmptyString m2 "Id" = true) →
      ∃ req, doUpdateCollection auth sObjectName (GoInput.sliceVal records)
          allOrNone = Except.ok req ∧
        req.body = RequestBody.collection (formatBool allOrNone)
          (records.map (fun m2 => mapSet "attributes" (GoValue.typeAttr sObjectName) m2)) ∧
        ∀ m2, mapGet "Id" (mapSet "attributes" (GoValue.typeAttr sObjectName) m2) =
          mapGet "Id" m2) ∧
    (records.length ≤ 200 → fieldName ≠ "attributes" →
      (∀ m2 ∈ records, hasNonEmptyString m2 fieldName = true) →
      ∃ req, doUpsertCollection auth sObjectName fieldName (GoInput.sliceVal records)
          allOrNone = Except.ok req ∧
        req.body = RequestBody.collection (formatBool allOrNone)
          (records.map (fun m2 => mapSet "attributes" (GoValue.typeAttr sObjectName) m2)) ∧
        ∀ m2, mapGet "Id" (mapSet "attributes" (GoValue.typeAttr sObjectName) m2) =
            mapGet "Id" m2 ∧
          mapGet fieldName (mapSet "attributes" (GoValue.typeAttr sObjectName) m2) =
            mapGet fieldName m2) := by
  refine ⟨?_, ?_, ?_, ?_, ?_, ?_⟩
  · have hreq : doInsertOne auth sObjectName (GoInput.mapVal m) =
        Except.ok { method := "POST", uri := "/sobjects/" ++ sObjectName,
                    content := jsonType,
                    body := RequestBody.record (mapDelete "Id"
                      (mapSet "attributes" (GoValue.typeAttr sObjectName) m)) } := by
      simp [doInsertOne, convertToMap, Bind.bind, Except.bind]
    exact ⟨_, _, hreq, rfl, encodedRecord_id_none sObjectName m,
      encodedRecord_attrs sObjectName m⟩
  · intro hid
    cases hv : stringFieldValue m "Id" with
    | none => simp [hasNonEmptyString, hv] at hid
    | some s =>
        have hs : ¬ s = "" := by
          intro he
          simp [hasNonEmptyString, hv, he] at hid
        have hreq : doUpdateOne auth sObjectName (GoInput.mapVal m) =
            Except.ok { method := "PATCH",
                        uri := "/sobjects/" ++ sObjectName ++ "/" ++ s,
                        content := jsonType,
                        body := RequestBody.record (mapDelete "Id"
                          (mapSet "attributes" (GoValue.typeAttr sObjectName) m)) } := by
          simp [doUpdateOne, convertToMap, hv, hs, Bind.bind, Except.bind]
        exact ⟨_, _, hreq, rfl, encodedRecord_id_none sObjectName m,
          encodedRecord_attrs sObjectName m⟩
  · intro hf hfa
    cases hv : stringFieldValue m fieldName with
    | none => simp [hasNonEmptyString, hv] at hf
    | some s =>
        have hs : ¬ s = "" := by
          intro he
          simp [hasNonEmptyString, hv, he] at hf
        have hreq : doUpsertOne auth sObjectName fieldName (GoInput.mapVal m) =
            Except.ok { method := "PATCH",
                        uri := "/sobjects/" ++ sObjectName ++ "/" ++ fieldName ++ "/" ++ s,
                        content := jsonType,
                        body := RequestBody.record (mapDelete fieldName (mapDelete "Id"
                          (mapSet "attributes" (GoValue.typeAttr sObjectName) m))) } := by
          simp [doUpsertOne, convertToMap, hv, hs, Bind.bind, Except.bind]
        refine ⟨_, _, hreq, rfl, ?_, mapGet_mapDelete_self fieldName _, ?_⟩
        · by_cases hfi : fieldName = "Id"
          · subst hfi
            rw [mapGet_mapDelete_self]
          · rw [mapGet_mapDelete_ne "Id" fieldName _ hfi]
            exact encodedRecord_id_none sObjectName m
        · rw [mapGet_mapDelete_ne "attributes" fieldName _ hfa]
          exact encodedRecord_attrs sObjectName m
  · intro hlen
    have hnot : ¬ records.length > 200 := by omega
    have hreq : doInsertCollection auth sObjectName (GoInput.sliceVal records)
        allOrNone =
        Except.ok { method := "POST", uri := "/composite/sobjects/",
                    content := jsonType,
                    body := RequestBody.collection (formatBool allOrNone)
                      (insertCollPrep sObjectName records) } := by
      simp [doInsertCollection, convertToSliceOfMaps, hnot, Bind.bind, Except.bind]
    refine ⟨_, insertCollPrep sObjectName records, hreq, rfl, ?_⟩
    intro rm hrm
    obtain ⟨m2, hm2, rfl⟩ := List.mem_map.mp hrm
    constructor
    · rw [mapGet_mapSet_ne "Id" "attributes" _ _ (by decide)]
      exact mapGet_mapDelete_self "Id" m2
    · exact mapGet_mapSet_self "attributes" _ _
  · intro hlen hids
    have hnot : ¬ records.length > 200 := by omega
    have hreq : doUpdateCollection auth sObjectName (GoInput.sliceVal records)
        allOrNone =
        Except.ok { method := "PATCH", uri := "/composite/sobjects/",
                    content := jsonType,
                    body := RequestBody.collection (formatBool allOrNone)
                      (records.map (fun m2 =>
                        mapSet "attributes" (GoValue.typeAttr sObjectName) m2)) } := by
      simp [doUpdateCollection, convertToSliceOfMaps, hnot,
        updateCollPrep_ok sObjectName records hids, Bind.bind, Except.bind]
    refine ⟨_, hreq, rfl, ?_⟩
    intro m2
    exact mapGet_mapSet_ne "Id" "attributes" _ m2 (by decide)
  · intro hlen hfa hfv
    have hnot : ¬ records.length > 200 := by omega
    have hreq : doUpsertCollection auth sObjectName fieldName
        (GoInput.sliceVal records) allOrNone =
        Except.ok { method := "PATCH",
                    uri := "/composite/sobjects/" ++ sObjectName ++ "/" ++ fieldName,
                    content := jsonType,
                    body := RequestBody.collection (formatBool allOrNone)
                      (records.map (fun m2 =>
                        mapSet "attributes" (GoValue.typeAttr sObjectName) m2)) } := by
      simp [doUpsertCollection, convertToSliceOfMaps, hnot,
        upsertCollPrep_ok sObjectName fieldName records hfa hfv, Bind.bind, Except.bind]
    refine ⟨_, hreq, rfl, ?_⟩
    intro m2
    exact ⟨mapGet_mapSet_ne "Id" "attributes" _ m2 (by decide),
      mapGet_mapSet_ne fieldName "attributes" _ m2 (fun he => hfa he.symm)⟩

/-- Witness for C1 (amended) at a concrete single-record update and a
concrete collection update. -/
theorem writeEncoding_attributes_amended_witness :
    (∃ req rm, doUpdateOne demoAuth "Account"
        (GoInput.mapVal [("Id", GoValue.str "001"), ("Name", GoValue.str "Acme")]) =
          Except.ok req ∧
      req.body = RequestBody.record rm ∧ mapGet "Id" rm = none ∧
      mapGet "attributes" rm = some (GoValue.typeAttr "Account")) ∧
    (∃ req, doUpdateCollection demoAuth "Account"
        (GoInput.sliceVal [[("Id", GoValue.str "001")]]) true = Except.ok req ∧
      req.body = RequestBody.collection "true"
        ([[("Id", GoValue.str "001")]].map (fun m2 =>
          mapSet "attributes" (GoValue.typeAttr "Account") m2)) ∧
      ∀ m2, mapGet "Id" (mapSet "attributes" (GoValue.typeAttr "Account") m2) =
        mapGet "Id" m2) := by
  constructor
  · exact (writeEncoding_attributes_amended demoAuth "Account" "Email"
      [("Id", GoValue.str "001"), ("Name", GoValue.str "Acme")] [] true).2.1 (by decide)
  · exact (writeEncoding_attributes_amended demoAuth "Account" "Email"
      [] [[("Id", GoValue.str "001")]] true).2.2.2.2.1 (by decide) (by decide)

/-- A structurally successful collection call reports overall success exactly
when the failure scan collects nothing. -/
theorem collectionPostProcess_success_iff (results : List SObjectResult) :
    collectionPostProcess 200 results = BatchOutcome.success ↔
      collectFailures 0 results = [] := by
  unfold collectionPostProcess processSalesforceResponse
  cases hcf : collectFailures 0 results with
  | nil => simp
  | cons f fs => simp

/-- C8: after a status-OK HTTP exchange, a collection operation succeeds
exactly when every per-record outcome reports success, and whenever the
record at any index reports failure the call returns the aggregated failure
list in which that index appears together with its error descriptors — the
scan is not short-circuited, so every failing index is present. -/
theorem batch_response_aggregation (results : List SObjectResult) :
    (collectionPostProcess 200 results = BatchOutcome.success ↔
      ∀ r ∈ results, r.success = true) ∧
    (∀ i, (h : i < results.length) → (results.get ⟨i, h⟩).success = false →
      ∃ failures,
        collectionPostProcess 200 results = BatchOutcome.recordFailures failures ∧
        FailedRecord.mk i (results.get ⟨i, h⟩).errors ∈ failures) := by
  constructor
  · rw [collectionPostProcess_success_iff]
    exact collectFailures_eq_nil_iff 0 results
  · intro i h hf
    have hmem := mem_collectFailures 0 results i h hf
    rw [Nat.zero_add] at hmem
    cases hcf : collectFailures 0 results with
    | nil =>
        rw [hcf] at hmem
        exact absurd hmem (List.not_mem_nil _)
    | cons f fs =>
        refine ⟨f :: fs, ?_, by rw [hcf] at hmem; exact hmem⟩
        unfold collectionPostProcess processSalesforceResponse
        rw [hcf]
        simp

/-- Demo per-record outcome list: three records, the middle one failing. -/
def demoResults : List SObjectResult :=
  [{ id := "001", success := true, errors := [] },
   { id := "", success := false,
     errors := [{ statusCode := "REQUIRED_FIELD_MISSING",
                  message := "Required fields are missing" }] },
   { id := "003", success := true, errors := [] }]

/-- Witness for C8: with the middle record of three failing, the call fails
with an aggregate in which index 1 appears with its error descriptors. -/
theorem batch_response_aggregation_witness :
    ∃ failures,
      collectionPostProcess 200 demoResults = BatchOutcome.recordFailures failures ∧
      FailedRecord.mk 1 (demoResults.get ⟨1, by decide⟩).errors ∈ failures :=
  (batch_response_aggregation demoResults).2 1 (by decide) (by decide)

end GoSalesforce
